import Mathlib

/-!
Verification of the heapcheck diagnostic classification pipeline
(parser → categorizer → aggregator) against its specification.

Shallow embedding of:
  * internal/parser (Parse and the eight diagnostic regular expressions),
  * internal/categorizer (categorize, Categorize),
  * the two post-processing filters of cmd/heapcheck (filterEscapesOnly,
    filterByPackage).

Strings are modelled as Lean `String`s (lists of characters); Go's byte
slicing and Unicode case folding are idealized in the standard way: all
pattern constants are ASCII, on which the Go and the model semantics
coincide.  The bufio scanner is modelled including its 64 KiB maximum
token size: a newline-free run of `MaxScanTokenSize` or more bytes makes
`scanner.Err()` return `ErrTooLong`, which `Parse` surfaces as an error.
-/

/-! ### Character classes -/

/-- The character class of Go's `regexp` escape `\s`, i.e. `[\t\n\f\r ]`. -/
def isRegexSpace (c : Char) : Bool :=
  c = '\t' || c = '\n' || c = '\x0c' || c = '\r' || c = ' '

/-- Go's `unicode.IsSpace`, the class used by `strings.TrimSpace`. -/
def isGoSpace (c : Char) : Bool :=
  c = '\t' || c = '\n' || c = '\x0b' || c = '\x0c' || c = '\r' || c = ' ' ||
  c = '\x85' || c = '\xa0' || c.toNat = 0x1680 ||
  (0x2000 ≤ c.toNat && c.toNat ≤ 0x200a) ||
  c.toNat = 0x2028 || c.toNat = 0x2029 || c.toNat = 0x202f ||
  c.toNat = 0x205f || c.toNat = 0x3000

/-- `strings.TrimSpace` on a character list. -/
def goTrimSpace (cs : List Char) : List Char :=
  ((cs.dropWhile isGoSpace).reverse.dropWhile isGoSpace).reverse

/-- ASCII lower-casing of one character (Go's `strings.ToLower` restricted
to the ASCII range, which covers every pattern constant of the categorizer). -/
def toLowerChar (c : Char) : Char :=
  if 'A' ≤ c ∧ c ≤ 'Z' then Char.ofNat (c.toNat + 32) else c

/-- `strings.ToLower`. -/
def toLowerStr (s : String) : String :=
  String.mk (s.data.map toLowerChar)

/-- Substring test on character lists (`strings.Contains`). -/
def listContainsSub (hay needle : List Char) : Bool :=
  match hay with
  | [] => needle.isEmpty
  | _ :: t => needle.isPrefixOf hay || listContainsSub t needle

/-- `strings.Contains`. -/
def strContains (s pat : String) : Bool :=
  listContainsSub s.data pat.data

/-- `strings.Join xs " "`. -/
def joinSpace : List String → String
  | [] => ""
  | [x] => x
  | x :: xs => x ++ " " ++ joinSpace xs

/-! ### Data model (internal/parser) -/

/-- `parser.EscapeType`. -/
inductive EscapeType where
  | Unknown
  | MovedToHeap
  | EscapesToHeap
  | DoesNotEscape
  | LeakingParam
  | CanInline
  | InliningCall
deriving DecidableEq, Repr

/-- `parser.EscapeInfo`.  `Line`/`Column` are Go `int`s that only ever hold
the (clamped) value of `strconv.Atoi` on a digit run, hence `Nat`. -/
structure EscapeInfo where
  File : String
  Line : Nat
  Column : Nat
  Variable : String
  EscapeType : EscapeType
  Reason : String
  FlowInfo : List String
deriving DecidableEq, Repr

/-! ### The eight diagnostic regular expressions

Each pattern has the shape `^(.+):(\d+):(\d+):<tail>`.  Go's `regexp`
(anchored, leftmost-first semantics) resolves the greedy `(.+)` file group
by trying the longest candidate first; `(\d+):` is deterministic (maximal
digit run followed by a mandatory colon); `.` does not match a newline.
`matchHeader` reproduces exactly that backtracking order. -/

/-- Value of `strconv.Atoi` on an all-digit string with the error
discarded: the numeric value, clamped to `MaxInt64` on range overflow. -/
def goAtoi (ds : List Char) : Nat :=
  min (ds.foldl (fun n c => n * 10 + (c.toNat - 48)) 0) (2 ^ 63 - 1)

/-- All splits `(p, rest)` of `cs` with `p` nonempty, longest `p` first:
the candidate matches of a greedy leading `(.+)`. -/
def headerSplits (cs : List Char) : List (List Char × List Char) :=
  (List.range cs.length).reverse.map fun i => (cs.take (i + 1), cs.drop (i + 1))

/-- Matches `:(\d+)` at the head: the digit group and the remainder. -/
def matchColNum (cs : List Char) : Option (List Char × List Char) :=
  match cs with
  | ':' :: rest =>
    let ds := rest.takeWhile Char.isDigit
    if ds.isEmpty then none else some (ds, rest.dropWhile Char.isDigit)
  | _ => none

/-- Matches `^(.+):(\d+):(\d+):` and hands the remainder to the
kind-specific tail matcher, backtracking over the file group
longest-first; returns `(file, line, col, capture)`. -/
def matchHeader (tail : List Char → Option (List Char)) (cs : List Char) :
    Option (List Char × Nat × Nat × List Char) :=
  (headerSplits cs).findSome? fun pr =>
    if pr.1.all (fun c => c ≠ '\n') then
      match matchColNum pr.2 with
      | some (d1, r1) =>
        match matchColNum r1 with
        | some (d2, r2) =>
          match r2 with
          | ':' :: r3 => (tail r3).map fun cap => (pr.1, goAtoi d1, goAtoi d2, cap)
          | _ => none
        | _ => none
      | _ => none
    else none

/-- End-anchored capture `(.+)$`: the whole remainder, which must be
nonempty and newline-free. -/
def capToEnd (cs : List Char) : Option (List Char) :=
  if cs ≠ [] ∧ cs.all (fun c => c ≠ '\n') then some cs else none

/-- Unanchored greedy capture `(.+)` with nothing after it: the maximal
nonempty newline-free run at the head. -/
def capGreedy (cs : List Char) : Option (List Char) :=
  let cap := cs.takeWhile (fun c => c ≠ '\n')
  if cap.isEmpty then none else some cap

/-- A literal, then a continuation. -/
def litThen (lit : String) (k : List Char → Option (List Char))
    (cs : List Char) : Option (List Char) :=
  if lit.data.isPrefixOf cs then k (cs.drop lit.data.length) else none

/-- Tail of `escapesToHeapRe`: ` (.+) escapes to heap` (not end-anchored).
The greedy capture group ends at the last occurrence of the literal that
is preceded by at least one character and contains no newline. -/
def escapesTail (cs : List Char) : Option (List Char) :=
  match cs with
  | ' ' :: r =>
    let bound := (r.takeWhile (fun c => c ≠ '\n')).length
    (List.range (bound + 1)).reverse.findSome? fun j =>
      if 1 ≤ j ∧ (" escapes to heap".data).isPrefixOf (r.drop j)
      then some (r.take j) else none
  | _ => none

/-- Tail of `doesNotEscapeRe`: ` (.+) does not escape$`. -/
def doesNotEscapeTail (cs : List Char) : Option (List Char) :=
  match cs with
  | ' ' :: r =>
    let lit := " does not escape".data
    if lit.length + 1 ≤ r.length ∧ r.drop (r.length - lit.length) = lit ∧
        (r.take (r.length - lit.length)).all (fun c => c ≠ '\n')
    then some (r.take (r.length - lit.length)) else none
  | _ => none

/-- Tail of `flowRe` and `fromRe`: `\s+<lit>(.+)$`. -/
def wsLitTail (lit : String) (cs : List Char) : Option (List Char) :=
  let ws := cs.takeWhile isRegexSpace
  if ws.isEmpty then none
  else litThen lit capToEnd (cs.drop ws.length)

/-! ### The six header parsers and the two continuation tests -/

/-- Builds the `EscapeInfo` a `parseX` helper returns from a header match. -/
def mkInfo (line : String) (et : EscapeType)
    (m : List Char × Nat × Nat × List Char) : EscapeInfo :=
  { File := String.mk m.1, Line := m.2.1, Column := m.2.2.1,
    Variable := String.mk m.2.2.2, EscapeType := et,
    Reason := line, FlowInfo := [] }

/-- `parseMovedToHeap`: `^(.+):(\d+):(\d+): moved to heap: (.+)$`. -/
def parseMovedToHeap (line : String) : Option EscapeInfo :=
  (matchHeader (litThen " moved to heap: " capToEnd) line.data).map
    (mkInfo line .MovedToHeap)

/-- `parseEscapesToHeap`: `^(.+):(\d+):(\d+): (.+) escapes to heap`. -/
def parseEscapesToHeap (line : String) : Option EscapeInfo :=
  (matchHeader escapesTail line.data).map (mkInfo line .EscapesToHeap)

/-- `parseDoesNotEscape`: `^(.+):(\d+):(\d+): (.+) does not escape$`. -/
def parseDoesNotEscape (line : String) : Option EscapeInfo :=
  (matchHeader doesNotEscapeTail line.data).map (mkInfo line .DoesNotEscape)

/-- `parseLeakingParam`: `^(.+):(\d+):(\d+): leaking param: (.+)`. -/
def parseLeakingParam (line : String) : Option EscapeInfo :=
  (matchHeader (litThen " leaking param: " capGreedy) line.data).map
    (mkInfo line .LeakingParam)

/-- `parseCanInline`: `^(.+):(\d+):(\d+): can inline (.+)$`. -/
def parseCanInline (line : String) : Option EscapeInfo :=
  (matchHeader (litThen " can inline " capToEnd) line.data).map
    (mkInfo line .CanInline)

/-- `parseInliningCall`: `^(.+):(\d+):(\d+): inlining call to (.+)$`. -/
def parseInliningCall (line : String) : Option EscapeInfo :=
  (matchHeader (litThen " inlining call to " capToEnd) line.data).map
    (mkInfo line .InliningCall)

/-- `flowRe.MatchString`: `^(.+):(\d+):(\d+):\s+flow: (.+)$`. -/
def flowMatch (line : String) : Bool :=
  (matchHeader (wsLitTail "flow: ") line.data).isSome

/-- `fromRe.MatchString`: `^(.+):(\d+):(\d+):\s+from (.+)$`. -/
def fromMatch (line : String) : Bool :=
  (matchHeader (wsLitTail "from ") line.data).isSome

/-! ### The Parse loop -/

/-- The six header attempts of `Parse`, in source order.  Each of the six
`if info := parseX(line); info != nil` branches of the Go loop performs
the same action (seal the current record, open the new one), so they are
folded into one first-match chain. -/
def headerOf (line : String) : Option EscapeInfo :=
  match parseMovedToHeap line with
  | some i => some i
  | none =>
  match parseEscapesToHeap line with
  | some i => some i
  | none =>
  match parseDoesNotEscape line with
  | some i => some i
  | none =>
  match parseLeakingParam line with
  | some i => some i
  | none =>
  match parseCanInline line with
  | some i => some i
  | none =>
  match parseInliningCall line with
  | some i => some i
  | none => none

/-- The scanning state of `Parse`: sealed records and the open record. -/
structure ParseState where
  results : List EscapeInfo
  current : Option EscapeInfo
deriving DecidableEq, Repr

/-- One iteration of the `scanner.Scan()` loop of `Parse`. -/
def parseStep (st : ParseState) (line : String) : ParseState :=
  if goTrimSpace line.data = [] then st
  else
    match headerOf line with
    | some info => ⟨st.results ++ st.current.toList, some info⟩
    | none =>
      match st.current with
      | some cur =>
        if flowMatch line || fromMatch line then
          ⟨st.results,
           some { cur with
                  FlowInfo := cur.FlowInfo ++ [String.mk (goTrimSpace line.data)] }⟩
        else st
      | none => st

/-- The whole `Parse` loop over an already split line sequence, including
the final seal of the open record. -/
def parseLines (lines : List String) : List EscapeInfo :=
  let st := lines.foldl parseStep ⟨[], none⟩
  st.results ++ st.current.toList

/-- `bufio.ScanLines` on an in-memory string: split at `'\n'`, drop one
trailing `'\r'` per line, no empty final token after a trailing newline. -/
def splitNl : List Char → List (List Char)
  | [] => [[]]
  | c :: t =>
    if c = '\n' then [] :: splitNl t
    else
      match splitNl t with
      | [] => [[c]]
      | p :: ps => (c :: p) :: ps

/-- One trailing carriage return is dropped from a scanned line. -/
def dropLastCR (l : List Char) : List Char :=
  if l.getLast? = some '\r' then l.dropLast else l

/-- The token sequence `bufio.NewScanner(strings.NewReader s)` yields
when no run exceeds the scanner's token bound (`scanAll` below imposes
that bound; past the first over-long run the scanner yields nothing, and
`Parse` then discards all tokens and returns the error). -/
def scanLines (s : String) : List String :=
  let ps := splitNl s.data
  let ps := match ps.getLast? with
    | some [] => ps.dropLast
    | _ => ps
  ps.map fun l => String.mk (dropLastCR l)

/-- `bufio.MaxScanTokenSize`: the scanner's default maximum token size,
64 KiB. -/
def maxScanTokenSize : Nat := 65536

/-- UTF-8 byte length of a line (Go strings are byte sequences; the
scanner's buffer bound is in bytes). -/
def lineBytes (cs : List Char) : Nat :=
  (cs.map Char.utf8Size).sum

/-- The whole scanner run of `Parse`'s loop.  The buffer of
`bufio.Scanner` grows to at most `maxScanTokenSize` bytes, and
`ScanLines` only emits a token once the terminating `'\n'` (or the
post-EOF short read) falls inside the buffered window; so a newline-free
run of `maxScanTokenSize` or more bytes fills the buffer before either
can appear, and `Scan` stops with `bufio.ErrTooLong`, which the loop's
final `scanner.Err()` check observes.  Shorter runs are all scanned. -/
def scanAll (s : String) : Except String (List String) :=
  if (splitNl s.data).all (fun l => decide (lineBytes l < maxScanTokenSize)) then
    Except.ok (scanLines s)
  else
    Except.error "bufio.Scanner: token too long"

/-- `parser.Parse`: scan all lines, then surface `scanner.Err()`; on a
scanner error the accumulated records are discarded and the wrapped
error is returned. -/
def Parse (output : String) : Except String (List EscapeInfo) :=
  match scanAll output with
  | Except.ok lines => Except.ok (parseLines lines)
  | Except.error err => Except.error ("scanning output: " ++ err)

/-! ### Data model (internal/categorizer) -/

/-- `categorizer.Category`: the closed enumeration of classification
outcomes (constructor names follow the Go constant names). -/
inductive Category where
  | ReturnPointer
  | InterfaceBoxing
  | ClosureCapture
  | GoroutineEscape
  | ChannelSend
  | SliceGrow
  | UnknownSize
  | TooLarge
  | FmtCall
  | Reflection
  | LeakingParam
  | StringConversion
  | Spill
  | Assignment
  | CallParameter
  | MapAllocation
  | NewAllocation
  | CompositeLiteral
  | Uncategorized
deriving DecidableEq, Repr

/-- `categorizer.Suggestion`. -/
structure Suggestion where
  Short : String
  Details : String
  DocLink : String
deriving DecidableEq, Repr

/-- The `suggestions` map; it has exactly one entry per category, so Go's
map indexing `suggestions[cat]` is the total function below. -/
def suggestions : Category → Suggestion
  | .ReturnPointer =>
    { Short := "Return by value if struct size ≤ 64 bytes",
      Details := "Returning a pointer to a local variable forces heap allocation. If the struct is small, return by value instead. For larger structs in hot paths, consider sync.Pool.",
      DocLink := "https://go.dev/doc/faq#stack_or_heap" }
  | .InterfaceBoxing =>
    { Short := "Use concrete types in hot paths",
      Details := "Assigning to interface{} or any causes heap allocation for the type metadata. Use generics (Go 1.18+) or concrete types in performance-critical code.",
      DocLink := "https://go.dev/blog/intro-generics" }
  | .ClosureCapture =>
    { Short := "Pass variables as parameters instead of capturing",
      Details := "Variables captured by closures often escape. Pass them as function parameters instead, especially for goroutines.",
      DocLink := "" }
  | .GoroutineEscape =>
    { Short := "Consider worker pools for high-frequency goroutines",
      Details := "Variables passed to goroutines must outlive the creating function and thus escape. For high-throughput scenarios, use worker pools with pre-allocated buffers.",
      DocLink := "" }
  | .ChannelSend =>
    { Short := "Buffer channels or use sync.Pool for sent values",
      Details := "Values sent on channels may escape. For frequently sent large objects, consider using sync.Pool.",
      DocLink := "" }
  | .SliceGrow =>
    { Short := "Pre-allocate slice capacity",
      Details := "Slices that may grow via append can escape. Pre-allocate with make([]T, 0, expectedCap) when the final size is predictable.",
      DocLink := "" }
  | .UnknownSize =>
    { Short := "Use fixed-size arrays when length is known",
      Details := "make([]T, n) with non-constant n causes heap allocation. If size is known at compile time, use arrays [N]T or pre-allocate.",
      DocLink := "" }
  | .TooLarge =>
    { Short := "Large allocations go to heap by design",
      Details := "Very large structs or arrays are placed on heap regardless of escape. Consider if the full size is necessary or if you can use pointers to smaller chunks.",
      DocLink := "" }
  | .FmtCall =>
    { Short := "Use strconv in hot paths",
      Details := "fmt.Sprintf and similar cause interface boxing. Use strconv.Itoa, strconv.FormatFloat, etc. for simple conversions in hot paths.",
      DocLink := "" }
  | .Reflection =>
    { Short := "Avoid reflect in hot paths",
      Details := "Reflection defeats escape analysis. Avoid reflect package in performance-critical code; use code generation or generics instead.",
      DocLink := "" }
  | .LeakingParam =>
    { Short := "Parameter escapes function scope",
      Details := "This parameter is stored or returned, causing it to escape. Consider if the storage is necessary or if you can restructure to avoid it.",
      DocLink := "" }
  | .StringConversion =>
    { Short := "String conversion allocates",
      Details := "Converting []byte to string (or vice versa) allocates. In hot paths, consider using unsafe conversion or reusing buffers.",
      DocLink := "" }
  | .Spill =>
    { Short := "Compiler spilled value to heap",
      Details := "The compiler determined this value may outlive the stack frame. Check if the value is stored in a long-lived data structure.",
      DocLink := "" }
  | .Assignment =>
    { Short := "Value assigned to escaping location",
      Details := "This value is assigned to a variable that escapes (field, global, etc.). Consider if the assignment is necessary.",
      DocLink := "" }
  | .CallParameter =>
    { Short := "Value escapes via function call",
      Details := "This value is passed to a function that causes it to escape. Check if the called function stores the parameter.",
      DocLink := "" }
  | .MapAllocation =>
    { Short := "Maps always allocate on heap",
      Details := "Maps in Go always escape to heap. Consider using arrays for small fixed-size lookups, or sync.Pool for frequently created maps.",
      DocLink := "" }
  | .NewAllocation =>
    { Short := "new() always allocates on heap",
      Details := "The new() builtin allocates on heap. For small structs, consider stack allocation with var x T followed by &x if needed.",
      DocLink := "" }
  | .CompositeLiteral =>
    { Short := "Composite literal escapes",
      Details := "Struct/slice/map literals that escape the function are heap allocated. For hot paths, consider reusing allocations.",
      DocLink := "" }
  | .Uncategorized =>
    { Short := "Review escape flow details",
      Details := "This escape couldn't be automatically categorized. Check the flow information for details on why the variable escapes.",
      DocLink := "" }

/-- `categorizer.CategorizedEscape`. -/
structure CategorizedEscape where
  Info : EscapeInfo
  Cat : Category
  Sugg : Suggestion
deriving DecidableEq, Repr

/-- `categorizer.Summary`.  The Go maps are modelled as association lists
with unique keys (Go map iteration order is irrelevant to every claim). -/
structure Summary where
  TotalVariables : Nat
  StackAllocated : Nat
  HeapAllocated : Nat
  Inlined : Nat
  ByFile : List (String × Nat)
deriving DecidableEq, Repr

/-- `categorizer.Results`. -/
structure Results where
  Summary : Summary
  ByCategory : List (Category × Nat)
  Escapes : List CategorizedEscape
deriving DecidableEq, Repr

/-- `m[k]++` on an association-list map: increment the entry of `k`,
inserting it with count 1 when absent. -/
def bump {κ : Type} [DecidableEq κ] : List (κ × Nat) → κ → List (κ × Nat)
  | [], k => [(k, 1)]
  | (a, n) :: t, k =>
    if a = k then (a, n + 1) :: t else (a, n) :: bump t k

/-- `categorizer.categorize`: the ordered first-match-wins cascade. -/
def categorize (e : EscapeInfo) : Category :=
  let reason := toLowerStr e.Reason
  let flowInfo := toLowerStr (joinSpace e.FlowInfo)
  let combined := reason ++ " " ++ flowInfo
  let vbl := toLowerStr e.Variable
  if strContains flowInfo "from return" && strContains flowInfo "&" then
    .ReturnPointer
  else if strContains flowInfo "address-of" && strContains flowInfo "return" then
    .ReturnPointer
  else if strContains flowInfo "interface-converted" then .InterfaceBoxing
  else if strContains combined "interface" then .InterfaceBoxing
  else if strContains combined "closure" || strContains combined "captured" then
    .ClosureCapture
  else if strContains combined "go func" || strContains combined "goroutine" then
    .GoroutineEscape
  else if strContains combined "chan" || strContains combined "channel" then
    .ChannelSend
  else if strContains combined "append" then .SliceGrow
  else if strContains flowInfo "appended" then .SliceGrow
  else if strContains combined "non-constant" then .UnknownSize
  else if strContains combined "too large" then .TooLarge
  else if strContains combined "fmt." then .FmtCall
  else if strContains combined "reflect" then .Reflection
  else if e.EscapeType = .LeakingParam then
    if strContains reason "to result" then .ReturnPointer
    else if strContains reason "content" then .InterfaceBoxing
    else .LeakingParam
  else if strContains vbl "string(" then .StringConversion
  else if strContains flowInfo "spill" then .Spill
  else if e.EscapeType = .MovedToHeap && strContains flowInfo "assign" then
    .Assignment
  else if e.EscapeType = .MovedToHeap && strContains flowInfo "call parameter" then
    .CallParameter
  else if strContains vbl "..." || strContains reason "... argument" then
    .InterfaceBoxing
  else if strContains vbl "make(map" || strContains reason "make(map" then
    .MapAllocation
  else if strContains vbl "make([]" || strContains reason "make([]" then
    .SliceGrow
  else if strContains vbl "new(" || strContains reason "new(" then
    .NewAllocation
  else if strContains vbl "literal" || strContains reason "literal" then
    .CompositeLiteral
  else if strContains reason "&" && !strContains flowInfo "return" then
    .CompositeLiteral
  else .Uncategorized

/-- One iteration of the aggregation loop of `categorizer.Categorize`.
The Go `switch` has no case for `Unknown`, which therefore only counts
toward `TotalVariables`. -/
def catStep (acc : Results) (e : EscapeInfo) : Results :=
  let acc : Results :=
    { acc with Summary := { acc.Summary with
        TotalVariables := acc.Summary.TotalVariables + 1 } }
  match e.EscapeType with
  | .DoesNotEscape =>
    { acc with Summary := { acc.Summary with
        StackAllocated := acc.Summary.StackAllocated + 1 } }
  | .MovedToHeap | .EscapesToHeap | .LeakingParam =>
    let cat := categorize e
    { acc with
      Summary := { acc.Summary with
        HeapAllocated := acc.Summary.HeapAllocated + 1,
        ByFile := bump acc.Summary.ByFile e.File },
      ByCategory := bump acc.ByCategory cat,
      Escapes := acc.Escapes ++ [⟨e, cat, suggestions cat⟩] }
  | .CanInline | .InliningCall =>
    { acc with Summary := { acc.Summary with
        Inlined := acc.Summary.Inlined + 1 } }
  | .Unknown => acc

/-- `categorizer.Categorize`. -/
def Categorize (escapes : List EscapeInfo) : Results :=
  escapes.foldl catStep
    { Summary := { TotalVariables := 0, StackAllocated := 0,
                   HeapAllocated := 0, Inlined := 0, ByFile := [] },
      ByCategory := [], Escapes := [] }

/-! ### The two post-processing filters (cmd/heapcheck) -/

/-- `containsPrefix` from cmd/heapcheck:
`len(path) >= len(prefix) && path[:len(prefix)] == prefix`. -/
def strStartsWith (path pre : String) : Bool :=
  decide (pre.data.length ≤ path.data.length) &&
  decide (path.data.take pre.data.length = pre.data)

/-- `filterEscapesOnly`: carries `Summary` and `ByCategory` through and
rebuilds `Escapes` from the records of kind MovedToHeap/EscapesToHeap. -/
def filterEscapesOnly (results : Results) : Results :=
  { Summary := results.Summary,
    ByCategory := results.ByCategory,
    Escapes := results.Escapes.foldl
      (fun acc e =>
        if e.Info.EscapeType = .MovedToHeap ∨ e.Info.EscapeType = .EscapesToHeap
        then acc ++ [e] else acc) [] }

/-- `filterByPackage`: carries `Summary` and `ByCategory` through and
rebuilds `Escapes` from the records whose file has the given prefix. -/
def filterByPackage (results : Results) (pre : String) : Results :=
  { Summary := results.Summary,
    ByCategory := results.ByCategory,
    Escapes := results.Escapes.foldl
      (fun acc e =>
        if strStartsWith e.Info.File pre = true then acc ++ [e] else acc) [] }

/-! ### Auxiliary definitions for the claims -/

/-- A line matching none of the recognized patterns: no header, no
flow/from continuation. -/
def ignoredLine (l : String) : Bool :=
  (headerOf l).isNone && !flowMatch l && !fromMatch l

/-- `InsIgn xs ys`: `ys` is `xs` with ignored (unrecognized) lines
inserted at arbitrary positions. -/
inductive InsIgn : List String → List String → Prop
  | nil : InsIgn [] []
  | keep {x : String} {xs ys : List String} :
      InsIgn xs ys → InsIgn (x :: xs) (x :: ys)
  | skip {x : String} {xs ys : List String} :
      ignoredLine x = true → InsIgn xs ys → InsIgn xs (x :: ys)

/-- Sum of the multiplicities of an association-list map. -/
def sumVals {κ : Type} : List (κ × Nat) → Nat
  | [] => 0
  | (_, n) :: t => n + sumVals t

/-! ### Concrete inputs used by counterexamples and witnesses -/

/-- A record of kind `Unknown`: the aggregator counts it in
`TotalVariables` but in none of the three buckets. -/
def unknownRec : EscapeInfo :=
  { File := "./a.go", Line := 1, Column := 1, Variable := "x",
    EscapeType := .Unknown, Reason := "./a.go:1:1: something odd about x",
    FlowInfo := [] }

/-- A parser-producible heap-bound record whose raw message contains both
"from return" and "&" while its flow details are empty. -/
def c3Rec : EscapeInfo :=
  { File := "./a.go", Line := 5, Column := 2,
    Variable := "x; from return &x",
    EscapeType := .MovedToHeap,
    Reason := "./a.go:5:2: moved to heap: x; from return &x",
    FlowInfo := [] }

/-- A heap-bound record whose flow details contain "from return" and "&". -/
def c3FlowRec : EscapeInfo :=
  { File := "./a.go", Line := 7, Column := 9, Variable := "x",
    EscapeType := .MovedToHeap,
    Reason := "./a.go:7:9: moved to heap: x",
    FlowInfo := ["./a.go:7:9:   flow: ~r0 = &x:",
                 "./a.go:7:9:     from return &x (return) at ./a.go:8:2"] }

/-- A line matched by both the moved-to-heap and the escapes-to-heap
header patterns. -/
def overlapLine : String := "./a.go:1:1: moved to heap: x escapes to heap"

/-- A plain moved-to-heap header line. -/
def movedLine : String := "./a.go:1:1: moved to heap: x"

/-- The record `parseLines [movedLine]` produces. -/
def movedRec : EscapeInfo :=
  { File := "./a.go", Line := 1, Column := 1, Variable := "x",
    EscapeType := .MovedToHeap, Reason := movedLine, FlowInfo := [] }

/-- A flow continuation line (with its own `<file>:<line>:<col>:` prefix). -/
def flowLine : String := "./a.go:2:3:   flow: ~r0 = &x:"

/-! ### Helper lemmas -/

lemma foldl_append_filter {α : Type} (p : α → Prop) [DecidablePred p] (l : List α) :
    ∀ acc : List α,
      l.foldl (fun a e => if p e then a ++ [e] else a) acc =
        acc ++ l.filter (fun e => decide (p e)) := by
  induction l with
  | nil => intro acc; simp
  | cons h t ih =>
    intro acc
    by_cases hp : p h
    · simp [List.foldl_cons, hp, ih, List.filter_cons]
    · simp [List.foldl_cons, hp, ih, List.filter_cons]

lemma sumVals_bump {κ : Type} [DecidableEq κ] (m : List (κ × Nat)) (k : κ) :
    sumVals (bump m k) = sumVals m + 1 := by
  induction m with
  | nil => simp [bump, sumVals]
  | cons h t ih =>
    obtain ⟨a, n⟩ := h
    by_cases hk : a = k
    · simp [bump, hk, sumVals]; omega
    · simp [bump, hk, sumVals, ih]; omega

lemma catStep_total (acc : Results) (e : EscapeInfo)
    (he : e.EscapeType ≠ EscapeType.Unknown)
    (h : acc.Summary.TotalVariables =
      acc.Summary.StackAllocated + acc.Summary.HeapAllocated + acc.Summary.Inlined) :
    (catStep acc e).Summary.TotalVariables =
      (catStep acc e).Summary.StackAllocated + (catStep acc e).Summary.HeapAllocated +
        (catStep acc e).Summary.Inlined := by
  cases hET : e.EscapeType <;> simp [catStep, hET] at he ⊢ <;> omega

lemma foldl_catStep_total (es : List EscapeInfo) :
    ∀ acc : Results, (∀ e ∈ es, e.EscapeType ≠ EscapeType.Unknown) →
      acc.Summary.TotalVariables =
        acc.Summary.StackAllocated + acc.Summary.HeapAllocated + acc.Summary.Inlined →
      (es.foldl catStep acc).Summary.TotalVariables =
        (es.foldl catStep acc).Summary.StackAllocated +
          (es.foldl catStep acc).Summary.HeapAllocated +
          (es.foldl catStep acc).Summary.Inlined := by
  induction es with
  | nil => intro acc _ h; simpa using h
  | cons e t ih =>
    intro acc hall h
    simp only [List.foldl_cons]
    exact ih (catStep acc e) (fun x hx => hall x (List.mem_cons_of_mem _ hx))
      (catStep_total acc e (hall e (List.mem_cons_self _ _)) h)

lemma catStep_sums (acc : Results) (e : EscapeInfo)
    (h1 : sumVals acc.Summary.ByFile = acc.Summary.HeapAllocated)
    (h2 : sumVals acc.ByCategory = acc.Summary.HeapAllocated) :
    sumVals (catStep acc e).Summary.ByFile = (catStep acc e).Summary.HeapAllocated ∧
      sumVals (catStep acc e).ByCategory = (catStep acc e).Summary.HeapAllocated := by
  cases hET : e.EscapeType <;> simp [catStep, hET, sumVals_bump, h1, h2]

lemma foldl_catStep_sums (es : List EscapeInfo) :
    ∀ acc : Results,
      sumVals acc.Summary.ByFile = acc.Summary.HeapAllocated →
      sumVals acc.ByCategory = acc.Summary.HeapAllocated →
      sumVals (es.foldl catStep acc).Summary.ByFile =
          (es.foldl catStep acc).Summary.HeapAllocated ∧
        sumVals (es.foldl catStep acc).ByCategory =
          (es.foldl catStep acc).Summary.HeapAllocated := by
  induction es with
  | nil => intro acc h1 h2; simpa using ⟨h1, h2⟩
  | cons e t ih =>
    intro acc h1 h2
    simp only [List.foldl_cons]
    obtain ⟨g1, g2⟩ := catStep_sums acc e h1 h2
    exact ih (catStep acc e) g1 g2

/-! ### Claim theorems -/

/-- C1 (counterexample): for a list containing one record of kind
`Unknown`, the aggregate has `totalVariables = 1` but all three buckets
zero, so `totalVariables = stackAllocated + heapAllocated + inlined`
fails: an `Unknown` record is counted in no bucket. -/
theorem bucket_partition_cex :
    (Categorize [unknownRec]).Summary.TotalVariables = 1 ∧
    (Categorize [unknownRec]).Summary.StackAllocated = 0 ∧
    (Categorize [unknownRec]).Summary.HeapAllocated = 0 ∧
    (Categorize [unknownRec]).Summary.Inlined = 0 ∧
    ¬ (Categorize [unknownRec]).Summary.TotalVariables =
        (Categorize [unknownRec]).Summary.StackAllocated +
          (Categorize [unknownRec]).Summary.HeapAllocated +
          (Categorize [unknownRec]).Summary.Inlined := by
  refine ⟨rfl, rfl, rfl, rfl, ?_⟩
  decide

/-- C1 (amended): for every input list of diagnostic records in which no
record has kind `Unknown` — which is the case for every record the Parser
produces — the AggregateResult built by `Categorize` satisfies
`totalVariables = stackAllocated + heapAllocated + inlined`: each such
record is counted in exactly one of the three buckets. -/
theorem bucket_partition (es : List EscapeInfo)
    (h : ∀ e ∈ es, e.EscapeType ≠ EscapeType.Unknown) :
    (Categorize es).Summary.TotalVariables =
      (Categorize es).Summary.StackAllocated +
        (Categorize es).Summary.HeapAllocated + (Categorize es).Summary.Inlined :=
  foldl_catStep_total es _ h rfl

/-- C1 (witness): the amended theorem applied to a concrete two-record
list that satisfies its hypothesis. -/
theorem bucket_partition_witness :
    (∀ e ∈ [movedRec, c3Rec], e.EscapeType ≠ EscapeType.Unknown) ∧
      (Categorize [movedRec, c3Rec]).Summary.TotalVariables =
        (Categorize [movedRec, c3Rec]).Summary.StackAllocated +
          (Categorize [movedRec, c3Rec]).Summary.HeapAllocated +
          (Categorize [movedRec, c3Rec]).Summary.Inlined :=
  ⟨by decide, bucket_partition [movedRec, c3Rec] (by decide)⟩

lemma Parse_eq_error {s e : String} (h : scanAll s = Except.error e) :
    Parse s = Except.error ("scanning output: " ++ e) := by
  unfold Parse
  rw [h]

lemma splitNl_no_newline (cs : List Char) (h : ∀ c ∈ cs, c ≠ '\n') :
    splitNl cs = [cs] := by
  induction cs with
  | nil => rfl
  | cons c t ih =>
    have hc : c ≠ '\n' := h c (List.mem_cons_self _ _)
    have ht : splitNl t = [t] := ih fun x hx => h x (List.mem_cons_of_mem _ hx)
    rw [splitNl, if_neg hc, ht]

/-- C2 (counterexample): an input consisting of one 65537-byte line — a
newline-free run longer than `bufio.MaxScanTokenSize` — makes the
scanner stop with `ErrTooLong`, so `Parse` returns an error, not a
successful result: malformed text is not always silently ignored. -/
theorem parse_errors_on_long_line_cex :
    Parse (String.mk (List.replicate 65537 'a')) =
        Except.error "scanning output: bufio.Scanner: token too long" ∧
      ∀ rs : List EscapeInfo,
        Parse (String.mk (List.replicate 65537 'a')) ≠ Except.ok rs := by
  have hs : splitNl (String.mk (List.replicate 65537 'a')).data =
      [List.replicate 65537 'a'] :=
    splitNl_no_newline _ fun c hc => by
      rw [List.eq_of_mem_replicate hc]; decide
  have hb : lineBytes (List.replicate 65537 'a') = 65537 := by
    have h1 : Char.utf8Size 'a' = 1 := rfl
    rw [lineBytes, List.map_replicate, List.sum_replicate, smul_eq_mul, h1,
      mul_one]
  have hcond : List.all [List.replicate 65537 'a']
      (fun l => decide (lineBytes l < maxScanTokenSize)) = false := by
    rw [List.all_cons, List.all_nil, Bool.and_true, hb]
    rfl
  have hsc : scanAll (String.mk (List.replicate 65537 'a')) =
      Except.error "bufio.Scanner: token too long" := by
    unfold scanAll
    rw [hs, hcond, if_neg (by decide : ¬ (false = true))]
  have hp : Parse (String.mk (List.replicate 65537 'a')) =
      Except.error "scanning output: bufio.Scanner: token too long" := by
    rw [Parse_eq_error hsc]
    rfl
  exact ⟨hp, fun rs hrs => by rw [hp] at hrs; cases hrs⟩

/-- C2 (amended): the Parser never panics, and for every input text each
of whose lines (maximal newline-free runs) is shorter than the scanner's
64 KiB `MaxScanTokenSize` — which holds for all real compiler diagnostic
output — `Parse` returns a successful (non-error) result, however
malformed or unrecognized the text: such lines are silently ignored, not
rejected.  An input containing a longer line is rejected with a scanning
error. -/
theorem parse_ok_for_bounded_lines (output : String)
    (h : (splitNl output.data).all
      (fun l => decide (lineBytes l < maxScanTokenSize)) = true) :
    ∃ rs : List EscapeInfo, Parse output = Except.ok rs := by
  refine ⟨parseLines (scanLines output), ?_⟩
  unfold Parse scanAll
  rw [h]
  rfl

/-- C2 (witness): the amended theorem applied to a short but entirely
unrecognized input text. -/
theorem parse_ok_for_bounded_lines_witness :
    ((splitNl ("not a diagnostic at all" : String).data).all
        (fun l => decide (lineBytes l < maxScanTokenSize)) = true) ∧
      ∃ rs : List EscapeInfo,
        Parse "not a diagnostic at all" = Except.ok rs :=
  ⟨by decide, parse_ok_for_bounded_lines _ (by decide)⟩

/-- C7: in the AggregateResult built by the Aggregator, the values of the
byCategory map sum to `heapAllocated`, and so do the values of the byFile
map, for every input record list. -/
theorem map_sums_equal_heap (es : List EscapeInfo) :
    sumVals (Categorize es).Summary.ByFile = (Categorize es).Summary.HeapAllocated ∧
      sumVals (Categorize es).ByCategory = (Categorize es).Summary.HeapAllocated :=
  foldl_catStep_sums es _ rfl rfl

/-- C6: both filters recompute nothing except the ordered Escapes list:
the filtered Summary (totalVariables, stackAllocated, heapAllocated,
inlined, byFile) and byCategory map equal those of the unfiltered input,
and the filtered Escapes list is the order-preserving subsequence of the
input's Escapes satisfying the filter predicate. -/
theorem filters_recompute_only_escapes (r : Results) (pre : String) :
    (filterEscapesOnly r).Summary = r.Summary ∧
      (filterEscapesOnly r).ByCategory = r.ByCategory ∧
      (filterEscapesOnly r).Escapes = r.Escapes.filter
        (fun e => decide (e.Info.EscapeType = EscapeType.MovedToHeap ∨
          e.Info.EscapeType = EscapeType.EscapesToHeap)) ∧
      (filterByPackage r pre).Summary = r.Summary ∧
      (filterByPackage r pre).ByCategory = r.ByCategory ∧
      (filterByPackage r pre).Escapes = r.Escapes.filter
        (fun e => decide (strStartsWith e.Info.File pre = true)) := by
  refine ⟨rfl, rfl, ?_, rfl, rfl, ?_⟩
  · exact foldl_append_filter
      (fun e => e.Info.EscapeType = EscapeType.MovedToHeap ∨
        e.Info.EscapeType = EscapeType.EscapesToHeap) r.Escapes []
  · exact foldl_append_filter
      (fun e : CategorizedEscape => strStartsWith e.Info.File pre = true) r.Escapes []

/-- C10: the escapes-only filter keeps exactly the CategorizedEscapes of
kind MovedToHeap or EscapesToHeap; in particular no record of kind
LeakingParam — although heap-bound and present in the unfiltered Escapes
list — survives the filter. -/
theorem filter_escapes_only_kinds (r : Results) :
    (filterEscapesOnly r).Escapes = r.Escapes.filter
        (fun e => decide (e.Info.EscapeType = EscapeType.MovedToHeap ∨
          e.Info.EscapeType = EscapeType.EscapesToHeap)) ∧
      (filterEscapesOnly r).Escapes.all
        (fun e => decide (¬ e.Info.EscapeType = EscapeType.LeakingParam)) = true := by
  have hf : (filterEscapesOnly r).Escapes = r.Escapes.filter
      (fun e => decide (e.Info.EscapeType = EscapeType.MovedToHeap ∨
        e.Info.EscapeType = EscapeType.EscapesToHeap)) :=
    foldl_append_filter
      (fun e : CategorizedEscape => e.Info.EscapeType = EscapeType.MovedToHeap ∨
        e.Info.EscapeType = EscapeType.EscapesToHeap) r.Escapes []
  refine ⟨hf, ?_⟩
  rw [hf]
  simp only [List.all_eq_true, List.mem_filter, decide_eq_true_eq]
  rintro e ⟨_, h | h⟩ <;> simp [h]

/-- C3 (counterexample): `c3Rec` is heap-bound (MovedToHeap) and the
lowercase-folded concatenation of its raw message and flow details
contains both "from return" and "&", yet the categorizer returns
composite-literal, not return-escaping-pointer: the first cascade rule
tests the flow details only, not the combined text. -/
theorem categorize_combined_cex :
    c3Rec.EscapeType = EscapeType.MovedToHeap ∧
      strContains (toLowerStr (c3Rec.Reason ++ " " ++ joinSpace c3Rec.FlowInfo))
        "from return" = true ∧
      strContains (toLowerStr (c3Rec.Reason ++ " " ++ joinSpace c3Rec.FlowInfo))
        "&" = true ∧
      categorize c3Rec = Category.CompositeLiteral ∧
      Category.CompositeLiteral ≠ Category.ReturnPointer := by
  refine ⟨rfl, ?_, ?_, ?_, by decide⟩ <;> decide

/-- C3 (amended): for every heap-bound record, if the lowercase-folded
space-join of its flowDetails alone contains both "from return" and "&",
the categorizer returns return-escaping-pointer; this is the first rule
of the cascade and takes precedence over every later rule. -/
theorem categorize_flow_return_pointer (e : EscapeInfo)
    (_hk : e.EscapeType = EscapeType.MovedToHeap ∨
      e.EscapeType = EscapeType.EscapesToHeap ∨
      e.EscapeType = EscapeType.LeakingParam)
    (h1 : strContains (toLowerStr (joinSpace e.FlowInfo)) "from return" = true)
    (h2 : strContains (toLowerStr (joinSpace e.FlowInfo)) "&" = true) :
    categorize e = Category.ReturnPointer := by
  simp [categorize, h1, h2]

/-- C3 (witness): the amended theorem applied to a record whose flow
details contain "from return &x". -/
theorem categorize_flow_return_pointer_witness :
    (c3FlowRec.EscapeType = EscapeType.MovedToHeap ∨
        c3FlowRec.EscapeType = EscapeType.EscapesToHeap ∨
        c3FlowRec.EscapeType = EscapeType.LeakingParam) ∧
      strContains (toLowerStr (joinSpace c3FlowRec.FlowInfo)) "from return" = true ∧
      strContains (toLowerStr (joinSpace c3FlowRec.FlowInfo)) "&" = true ∧
      categorize c3FlowRec = Category.ReturnPointer :=
  ⟨by decide, by decide, by decide,
    categorize_flow_return_pointer c3FlowRec (by decide) (by decide) (by decide)⟩

/-- C4 (counterexample): the header patterns are not mutually exclusive:
`overlapLine` is matched by both the moved-to-heap pattern and the
escapes-to-heap pattern (with different resulting records). -/
theorem header_patterns_overlap_cex :
    (parseMovedToHeap overlapLine).isSome = true ∧
      (parseEscapesToHeap overlapLine).isSome = true ∧
      parseMovedToHeap overlapLine ≠ parseEscapesToHeap overlapLine := by
  refine ⟨?_, ?_, ?_⟩ <;> decide

/-- C4 (amended): the six header patterns are not all mutually exclusive;
on a line matched by several, the Parser's fixed trial order
(moved-to-heap first) determines the record, so the order does affect the
result on such lines: `overlapLine` parses as a MovedToHeap record even
though the escapes-to-heap pattern also matches it. -/
theorem header_order_first_match_wins :
    parseLines [overlapLine] =
        [{ File := "./a.go", Line := 1, Column := 1,
           Variable := "x escapes to heap", EscapeType := EscapeType.MovedToHeap,
           Reason := overlapLine, FlowInfo := [] }] ∧
      (parseEscapesToHeap overlapLine).isSome = true := by
  refine ⟨?_, ?_⟩ <;> decide

/-- C5 (counterexample): the continuation line `flowLine` attaches to the
open record, but what is appended to flowDetails is the whitespace-trimmed
whole line — still carrying its `<file>:<line>:<col>:` prefix — not the
trimmed remainder after that prefix. -/
theorem flow_append_remainder_cex :
    (parseLines [movedLine, flowLine]).map (fun e => e.FlowInfo) =
        [["./a.go:2:3:   flow: ~r0 = &x:"]] ∧
      ("./a.go:2:3:   flow: ~r0 = &x:" : String) ≠ "flow: ~r0 = &x:" := by
  refine ⟨?_, ?_⟩ <;> decide

/-- C5 (amended): for every continuation line (one matched by the flow or
from pattern but by no header pattern, and not blank) seen while a record
is open, the Parser appends the whitespace-trimmed whole line (including
its `<file>:<line>:<col>:` prefix) to the open record's flowDetails;
continuation lines attach only to the currently open (nearest preceding)
header, and with no open record the line is dropped, not attached. -/
theorem flow_attaches_to_open_record (res : List EscapeInfo)
    (cur : EscapeInfo) (line : String)
    (hh : headerOf line = none)
    (hb : ¬ goTrimSpace line.data = [])
    (hf : (flowMatch line || fromMatch line) = true) :
    parseStep ⟨res, some cur⟩ line =
        ⟨res, some { cur with
          FlowInfo := cur.FlowInfo ++ [String.mk (goTrimSpace line.data)] }⟩ ∧
      parseStep ⟨res, none⟩ line = ⟨res, none⟩ := by
  constructor <;> simp [parseStep, hb, hh, hf]

/-- C5 (witness): the amended theorem applied to the concrete flow
continuation line, with one open record and with none. -/
theorem flow_attaches_to_open_record_witness :
    parseStep ⟨[], some movedRec⟩ flowLine =
        ⟨[], some { movedRec with
          FlowInfo := movedRec.FlowInfo ++ [String.mk (goTrimSpace flowLine.data)] }⟩ ∧
      parseStep ⟨[], none⟩ flowLine = ⟨[], none⟩ :=
  flow_attaches_to_open_record [] movedRec flowLine (by decide) (by decide) (by decide)

lemma parseStep_ignored (st : ParseState) (l : String)
    (h : ignoredLine l = true) : parseStep st l = st := by
  simp only [ignoredLine, Bool.and_eq_true, Bool.not_eq_true',
    Option.isNone_iff_eq_none] at h
  obtain ⟨⟨hh, hf⟩, hfr⟩ := h
  by_cases hb : goTrimSpace l.data = []
  · simp [parseStep, hb]
  · cases hc : st.current <;>
      simp [parseStep, hb, hh, hf, hfr, hc]

lemma foldl_parseStep_insIgn {xs ys : List String} (h : InsIgn xs ys) :
    ∀ st : ParseState, ys.foldl parseStep st = xs.foldl parseStep st := by
  induction h with
  | nil => intro st; rfl
  | keep _ ih => intro st; simp only [List.foldl_cons]; exact ih _
  | skip hx _ ih =>
    intro st
    simp only [List.foldl_cons, parseStep_ignored _ _ hx]
    exact ih st

/-- C8: parsing is invariant under interleaving of unrecognized lines:
whenever `ys` is `xs` with lines matched by none of the recognized
patterns (no header, no flow/from continuation) inserted between them,
parsing `ys` yields exactly the same record sequence as parsing `xs`. -/
theorem parse_invariant_under_ignored_lines {xs ys : List String}
    (h : InsIgn xs ys) : parseLines ys = parseLines xs := by
  unfold parseLines
  rw [foldl_parseStep_insIgn h]

/-- C8 (witness): inserting two concrete unrecognized lines around a
header line leaves the parsed record sequence unchanged. -/
theorem parse_invariant_under_ignored_lines_witness :
    InsIgn [movedLine] ["# build output", movedLine, "note: whatever"] ∧
      parseLines ["# build output", movedLine, "note: whatever"] =
        parseLines [movedLine] :=
  have d : InsIgn [movedLine] ["# build output", movedLine, "note: whatever"] :=
    InsIgn.skip (by decide) (InsIgn.keep (InsIgn.skip (by decide) InsIgn.nil))
  ⟨d, parse_invariant_under_ignored_lines d⟩

lemma mkInfo_map_kind {l : String} {et : EscapeType}
    {o : Option (List Char × Nat × Nat × List Char)} {i : EscapeInfo}
    (h : o.map (mkInfo l et) = some i) : i.EscapeType = et := by
  simp only [Option.map_eq_some'] at h
  obtain ⟨m, _, rfl⟩ := h
  rfl

lemma headerOf_not_unknown {l : String} {i : EscapeInfo}
    (h : headerOf l = some i) : i.EscapeType ≠ EscapeType.Unknown := by
  unfold headerOf at h
  repeat' split at h
  all_goals cases h
  all_goals intro hu
  all_goals rw [mkInfo_map_kind (by assumption)] at hu
  all_goals cases hu

lemma parseStep_no_unknown (st : ParseState) (l : String)
    (hr : ∀ e ∈ st.results, e.EscapeType ≠ EscapeType.Unknown)
    (hc : ∀ e ∈ st.current.toList, e.EscapeType ≠ EscapeType.Unknown) :
    (∀ e ∈ (parseStep st l).results, e.EscapeType ≠ EscapeType.Unknown) ∧
      ∀ e ∈ (parseStep st l).current.toList, e.EscapeType ≠ EscapeType.Unknown := by
  by_cases hb : goTrimSpace l.data = []
  · simp only [parseStep, hb, if_pos]
    exact ⟨hr, hc⟩
  · cases hh : headerOf l with
    | some info =>
      simp only [parseStep, hb, if_neg, hh]
      constructor
      · intro e he
        rcases List.mem_append.mp he with h1 | h1
        · exact hr e h1
        · exact hc e h1
      · intro e he
        have he2 : e = info := by simpa using he
        subst he2
        exact headerOf_not_unknown hh
    | none =>
      cases hcur : st.current with
      | some cur =>
        by_cases hf : (flowMatch l || fromMatch l) = true
        · have hst : parseStep st l = ⟨st.results, some { cur with
              FlowInfo := cur.FlowInfo ++ [String.mk (goTrimSpace l.data)] }⟩ := by
            simp [parseStep, hb, hh, hcur, hf]
          rw [hst]
          refine ⟨hr, ?_⟩
          intro e he
          have he2 : e = { cur with
              FlowInfo := cur.FlowInfo ++ [String.mk (goTrimSpace l.data)] } := by
            simpa using he
          subst he2
          simpa using hc cur (by simp [hcur])
        · have hst : parseStep st l = st := by
            simp [parseStep, hb, hh, hcur, hf]
          rw [hst]
          exact ⟨hr, hc⟩
      | none =>
        have hst : parseStep st l = st := by
          simp [parseStep, hb, hh, hcur]
        rw [hst]
        exact ⟨hr, hc⟩

lemma foldl_parseStep_no_unknown (lines : List String) :
    ∀ st : ParseState,
      (∀ e ∈ st.results, e.EscapeType ≠ EscapeType.Unknown) →
      (∀ e ∈ st.current.toList, e.EscapeType ≠ EscapeType.Unknown) →
      (∀ e ∈ (lines.foldl parseStep st).results, e.EscapeType ≠ EscapeType.Unknown) ∧
        ∀ e ∈ (lines.foldl parseStep st).current.toList,
          e.EscapeType ≠ EscapeType.Unknown := by
  induction lines with
  | nil => intro st hr hc; exact ⟨hr, hc⟩
  | cons l t ih =>
    intro st hr hc
    simp only [List.foldl_cons]
    obtain ⟨g1, g2⟩ := parseStep_no_unknown st l hr hc
    exact ih _ g1 g2

/-- C9: every EscapeInfo returned by Parse has EscapeType equal to one of
the six parsed kinds; the `Unknown` kind is never produced by the Parser
(which is what makes the three-bucket partition hold on parser output). -/
theorem parse_never_produces_unknown (output : String) (rs : List EscapeInfo)
    (h : Parse output = Except.ok rs) :
    ∀ e ∈ rs, e.EscapeType ≠ EscapeType.Unknown := by
  have hrs : rs = parseLines (scanLines output) := by
    unfold Parse scanAll at h
    by_cases hc : (splitNl output.data).all
        (fun l => decide (lineBytes l < maxScanTokenSize)) = true
    · rw [hc] at h
      cases h
      rfl
    · simp only [Bool.not_eq_true] at hc
      rw [hc] at h
      cases h
  subst hrs
  unfold parseLines
  intro e he
  obtain ⟨g1, g2⟩ := foldl_parseStep_no_unknown (scanLines output) ⟨[], none⟩
    (by intro e he; cases he) (by intro e he; cases he)
  rcases List.mem_append.mp he with h1 | h1
  · exact g1 e h1
  · exact g2 e h1

/-- C9 (witness): the theorem applied to a concrete one-line input whose
sole record is `movedRec`. -/
theorem parse_never_produces_unknown_witness :
    Parse movedLine = Except.ok [movedRec] ∧
      movedRec ∈ [movedRec] ∧
      movedRec.EscapeType ≠ EscapeType.Unknown :=
  ⟨by rfl, by decide,
    parse_never_produces_unknown movedLine [movedRec] (by rfl) movedRec (by decide)⟩
